import Mathlib

/-!
Shallow embedding of the control and audio-pipeline core of the
xiaozhi-esp32 voice-assistant firmware (`main/application.cc`,
`main/background_task.cc`), together with proofs of the behavioural
properties of its state machine, audio output pipeline, local prompt
player and background executor.

Machine state that in the C++ lives in `Application` members
(`device_state_`, `audio_decode_queue_`, `opus_decode_sample_rate_`,
`aborted_`, `last_output_time_`) is modelled as explicit record fields;
calls into the board façade (display, LED, codec) are modelled as an
emitted list of `Action`s so that ordering claims can be stated.
-/

namespace XiaoZhi

/-- `DeviceState` from `application.h`, one constructor per enumerator,
in declaration order (matching `STATE_STRINGS` in `application.cc`). -/
inductive DeviceState where
  | unknown
  | starting
  | configuring
  | idle
  | connecting
  | listening
  | speaking
  | upgrading
  | fatalError
  | invalidState
deriving DecidableEq, Repr

/-- `STATE_STRINGS` from `application.cc`: the human-readable name logged
for each state. -/
def stateString : DeviceState → String
  | .unknown => "unknown"
  | .starting => "starting"
  | .configuring => "configuring"
  | .idle => "idle"
  | .connecting => "connecting"
  | .listening => "listening"
  | .speaking => "speaking"
  | .upgrading => "upgrading"
  | .fatalError => "fatal_error"
  | .invalidState => "invalid_state"

/-- Observable effects of the core on its collaborators (display, LED,
codec, decoder/encoder, audio processor, IoT publisher), plus the
bookkeeping events of `SetDeviceState` itself.  Emitted in call order. -/
inductive Action where
  | updateState (s : DeviceState)
  | logStateChange (name : String)
  | logWarning (msg : String)
  | waitForCompletion
  | ledOnStateChanged
  | displaySetStatus (txt : String)
  | displaySetEmotion (txt : String)
  | resetDecoder
  | encoderResetState
  | audioProcessorStart
  | audioProcessorStop
  | updateIotStates
  | enableOutput (enabled : Bool)
deriving DecidableEq, Repr

/-- Actions that touch a peripheral or the audio pipeline: the per-state
side effects of a state change (display, LED, decoder/encoder, audio
processor, IoT, codec), as opposed to the state update, the log line and
the background barrier. -/
def Action.isSideEffect : Action → Bool
  | .updateState _ => false
  | .logStateChange _ => false
  | .logWarning _ => false
  | .waitForCompletion => false
  | .ledOnStateChanged => true
  | .displaySetStatus _ => true
  | .displaySetEmotion _ => true
  | .resetDecoder => true
  | .encoderResetState => true
  | .audioProcessorStart => true
  | .audioProcessorStop => true
  | .updateIotStates => true
  | .enableOutput _ => true

/-- Warning log entries. -/
def Action.isWarning : Action → Bool
  | .logWarning _ => true
  | _ => false

/-- The `switch (state)` body of `Application::SetDeviceState`
(application.cc:617-649), ESP32-S3 build (the build whose audio-processor
side effects the specification describes): the per-target-state side
effects, in call order. -/
def stateSideEffects : DeviceState → List Action
  | .unknown =>
      [.displaySetStatus "待命", .displaySetEmotion "neutral", .audioProcessorStop]
  | .idle =>
      [.displaySetStatus "待命", .displaySetEmotion "neutral", .audioProcessorStop]
  | .connecting => [.displaySetStatus "连接中..."]
  | .listening =>
      [.displaySetStatus "聆听中...", .displaySetEmotion "neutral", .resetDecoder,
       .encoderResetState, .audioProcessorStart, .updateIotStates]
  | .speaking => [.displaySetStatus "说话中...", .resetDecoder, .audioProcessorStop]
  | _ => []

/-- `Application::SetDeviceState` (application.cc:604-650): given the
current state and the requested one, returns the new current state and
the list of emitted actions in program order.  If the requested state
equals the current one the function returns immediately; otherwise it
assigns `device_state_`, logs the new name, waits for background tasks,
notifies the LED and applies the per-state side effects. -/
def setDeviceState (cur target : DeviceState) : DeviceState × List Action :=
  if cur = target then
    (cur, [])
  else
    (target,
      .updateState target :: .logStateChange (stateString target) ::
        .waitForCompletion :: .ledOnStateChanged :: stateSideEffects target)

/-- The legal-transition relation as the specification words it:
Idle → Connecting → Listening ↔ Speaking → Idle, Listening → Idle,
Speaking → Idle, Any → Upgrading, Any → FatalError.  This definition
follows the spec text (not the source) and exists to be compared with
`setDeviceState`. -/
def specLegalTransition (a b : DeviceState) : Bool :=
  match a, b with
  | _, .upgrading => true
  | _, .fatalError => true
  | .idle, .connecting => true
  | .connecting, .listening => true
  | .listening, .speaking => true
  | .speaking, .listening => true
  | .speaking, .idle => true
  | .listening, .idle => true
  | _, _ => false

/-- The `OnIncomingAudio` handler registered in `Application::Start`
(application.cc:375-380): the incoming frame is appended to
`audio_decode_queue_` only when `device_state_ == kDeviceStateSpeaking`. -/
def onIncomingAudio (ds : DeviceState) (queue : List (List Nat))
    (frame : List Nat) : List (List Nat) :=
  if ds = .speaking then queue ++ [frame] else queue

/-- `max_silence_seconds` in `Application::OutputAudio`. -/
def maxSilenceSeconds : Nat := 10

/-- Result of one `Application::OutputAudio` tick: the decode queue and
`last_output_time_` after the tick, the actions emitted on the control
path, and the frame (if any) handed to the background decode task. -/
structure OutputTick where
  queue : List (List Nat)
  lastOutputMs : Nat
  actions : List Action
  decodeTask : Option (List Nat)
deriving DecidableEq, Repr

/-- `Application::OutputAudio` (application.cc:498-545).  Times are in
milliseconds; the C++ `duration_cast<seconds>` truncation is `/ 1000`.
With an empty queue: in Idle, if strictly more than `max_silence_seconds`
whole seconds elapsed since the last output, the codec output is
disabled; then return.  With a non-empty queue: in Listening the whole
queue is discarded; otherwise the head frame is popped,
`last_output_time_` is set to now, and the frame goes to the background
decode task. -/
def outputAudio (ds : DeviceState) (queue : List (List Nat))
    (lastMs nowMs : Nat) : OutputTick :=
  match queue with
  | [] =>
      { queue := []
        lastOutputMs := lastMs
        actions :=
          if ds = DeviceState.idle ∧ (nowMs - lastMs) / 1000 > maxSilenceSeconds then
            [.enableOutput false]
          else []
        decodeTask := none }
  | frame :: rest =>
      if ds = DeviceState.listening then
        { queue := [], lastOutputMs := lastMs, actions := [], decodeTask := none }
      else
        { queue := rest, lastOutputMs := nowMs, actions := [], decodeTask := some frame }

/-- The background decode closure scheduled by `Application::OutputAudio`
(application.cc:525-544), as a function from the `aborted_` flag and the
popped opus frame to the list of PCM blocks written to the codec by this
closure.  `decode` models `OpusDecoderWrapper::Decode` (`none` on
failure); `resample` models the output resampler; `needResample` is
`opus_decode_sample_rate_ != codec->output_sample_rate()`.  The closure
first checks `aborted_` and returns without decoding when it is set. -/
def decodeClosure (aborted : Bool) (decode : List Nat → Option (List Int))
    (resample : List Int → List Int) (needResample : Bool)
    (opus : List Nat) : List (List Int) :=
  if aborted then []
  else
    match decode opus with
    | none => []
    | some pcm => [if needResample then resample pcm else pcm]

/-- Events that touch the `aborted_` flag or run a decode closure:
`Application::AbortSpeaking` (application.cc:598-602) sets the flag; the
`tts.state == "start"` handler (application.cc:407-412) clears it; a
background decode task (application.cc:525-544) reads it. -/
inductive SpeakEvent where
  | abortSpeaking
  | ttsStart
  | runDecode (opus : List Nat)
deriving DecidableEq, Repr

/-- One step of the `aborted_` flag history: the new flag value and the
PCM blocks pushed to the codec by the event. -/
def speakStep (decode : List Nat → Option (List Int))
    (resample : List Int → List Int) (needResample : Bool)
    (aborted : Bool) : SpeakEvent → Bool × List (List Int)
  | .abortSpeaking => (true, [])
  | .ttsStart => (false, [])
  | .runDecode opus =>
      (aborted, decodeClosure aborted decode resample needResample opus)

/-- Folds a list of `SpeakEvent`s over the `aborted_` flag, collecting all
PCM blocks the decode closures push to the codec. -/
def speakRun (decode : List Nat → Option (List Int))
    (resample : List Int → List Int) (needResample : Bool)
    (aborted : Bool) : List SpeakEvent → Bool × List (List Int)
  | [] => (aborted, [])
  | e :: es =>
      let r := speakStep decode resample needResample aborted e
      let rest := speakRun decode resample needResample r.1 es
      (rest.1, r.2 ++ rest.2)

/-- State of the `BackgroundTask` executor (`background_task.cc`):
`pending` models `main_tasks_` (wrapped closures not yet taken by the
worker), `inflight` the closures taken by `BackgroundTaskLoop`'s batch
swap but not yet finished, `done` the closures that have run, and
`active` the `active_tasks_` counter.  Closures are identified by `Nat`
ids in submission order. -/
structure BgState where
  pending : List Nat
  inflight : List Nat
  done : List Nat
  active : Nat
deriving DecidableEq, Repr

/-- Operations on the executor: `BackgroundTask::Schedule`
(background_task.cc:39-56), the batch swap in
`BackgroundTask::BackgroundTaskLoop` (background_task.cc:65-78), and the
completion of one in-flight wrapped closure (the wrapper body built in
`Schedule`, background_task.cc:45-54). -/
inductive BgOp where
  | schedule (id : Nat)
  | takeBatch
  | finishOne
deriving DecidableEq, Repr

/-- The predicate `main_tasks_.empty() && active_tasks_ == 0` that both
`WaitForCompletion` (background_task.cc:58-63) waits on and the wrapper
tests before notifying (background_task.cc:50-52). -/
def bgWaitPred (s : BgState) : Bool :=
  s.pending.isEmpty && s.active == 0

/-- One executor step, returning the new state and whether the
completion condition was notified by this step.  `Schedule` increments
`active_tasks_` and appends the wrapped closure; the batch swap moves
every pending closure in-flight; finishing a closure runs it (appends to
`done`), decrements `active_tasks_`, and notifies the completion
condition exactly when the queue is empty and the counter reached
zero. -/
def bgStep (s : BgState) : BgOp → BgState × Bool
  | .schedule id =>
      ({ s with pending := s.pending ++ [id], active := s.active + 1 }, false)
  | .takeBatch =>
      ({ s with pending := [], inflight := s.inflight ++ s.pending }, false)
  | .finishOne =>
      match s.inflight with
      | [] => (s, false)
      | t :: rest =>
          let s2 : BgState :=
            { s with inflight := rest, done := s.done ++ [t], active := s.active - 1 }
          (s2, bgWaitPred s2)

/-- The executor state at construction: no tasks, counter zero. -/
def bgInit : BgState := ⟨[], [], [], 0⟩

/-- Runs a sequence of executor operations. -/
def bgRun (s : BgState) : List BgOp → BgState
  | [] => s
  | op :: ops => bgRun (bgStep s op).1 ops

/-- The ids submitted by the `schedule` operations of a run, in
submission order. -/
def bgScheduledIds : List BgOp → List Nat
  | [] => []
  | .schedule id :: ops => id :: bgScheduledIds ops
  | .takeBatch :: ops => bgScheduledIds ops
  | .finishOne :: ops => bgScheduledIds ops

/-- Size in bytes of the fixed binary frame header.
Modelled from the spec: the `BinaryProtocol3` struct declaration is not
among the sources under verification (only `Application::PlayLocalFile`
uses it); per the spec's external-interface section, each record of the
local prompt format has a 16-byte fixed binary header whose non-size
fields are opaque to the core. -/
def headerSize : Nat := 16

/-- Offset of the `payload_size` field inside the frame header.
Modelled from the spec: the 16-byte header carries a big-endian
`uint16 payload_size` at offset 2. -/
def payloadSizeOffset : Nat := 2

/-- `ntohs` applied to two bytes stored big-endian: the first byte is the
most significant. -/
def beU16 (b0 b1 : Nat) : Nat := b0 * 256 + b1

/-- The declared payload size of the frame starting at the head of
`buf`: the big-endian `uint16` at bytes 2 and 3 of the header. -/
def declaredSize (buf : List Nat) : Nat :=
  beU16 (buf.getD payloadSizeOffset 0) (buf.getD (payloadSizeOffset + 1) 0)

/-- The parsing loop of `Application::PlayLocalFile`
(application.cc:154-168): starting at the head of the buffer, read the
header, take `payload_size` payload bytes after it, and continue after
the payload until the buffer is exhausted.  Returns the extracted
payloads in buffer order. -/
def parseP3 : List Nat → List (List Nat)
  | [] => []
  | b :: bs =>
      ((b :: bs).drop headerSize).take (declaredSize (b :: bs)) ::
        parseP3 ((b :: bs).drop (headerSize + declaredSize (b :: bs)))
termination_by buf => buf.length
decreasing_by
  simp only [List.length_drop, List.length_cons, headerSize]
  omega

/-- A well-formed local prompt record: two opaque leading header bytes,
twelve opaque trailing header bytes, and an opus payload whose length
fits the `uint16` size field. -/
structure P3Record where
  b0 : Nat
  b1 : Nat
  hdrRest : List Nat
  payload : List Nat
deriving DecidableEq, Repr

/-- Well-formedness of a record: the opaque trailing header part is
twelve bytes (so the header is sixteen bytes in all) and the payload
length fits in the 16-bit size field. -/
def P3Record.wf (r : P3Record) : Prop :=
  r.hdrRest.length = 12 ∧ r.payload.length < 65536

instance (r : P3Record) : Decidable r.wf := by
  unfold P3Record.wf
  infer_instance

/-- The 16-byte header of a record: two opaque bytes, the big-endian
payload size, then the twelve opaque bytes. -/
def p3header (r : P3Record) : List Nat :=
  r.b0 :: r.b1 :: (r.payload.length / 256) :: (r.payload.length % 256) :: r.hdrRest

/-- The wire form of a record: header followed by payload. -/
def encodeRecord (r : P3Record) : List Nat :=
  p3header r ++ r.payload

/-- The `Application` member state touched by the local prompt player and
the incoming-audio handler: `device_state_`, `audio_decode_queue_` and
`opus_decode_sample_rate_`. -/
structure AppState where
  deviceState : DeviceState
  audioDecodeQueue : List (List Nat)
  opusDecodeSampleRate : Nat
deriving DecidableEq, Repr

/-- `Application::PlayLocalFile` (application.cc:150-169): set the decode
sample rate to 16000 (it does not consult `device_state_`), then append
every parsed payload to `audio_decode_queue_` in buffer order. -/
def playLocalFile (st : AppState) (buf : List Nat) : AppState :=
  { st with
      opusDecodeSampleRate := 16000
      audioDecodeQueue := st.audioDecodeQueue ++ parseP3 buf }

/-- The two kinds of calls `Application::PlayLocalFile` makes, for
stating their order. -/
inductive PlayAction where
  | setDecodeSampleRate (rate : Nat)
  | enqueue (payload : List Nat)
deriving DecidableEq, Repr

/-- The calls of `Application::PlayLocalFile` in program order: the
sample-rate call precedes every enqueue. -/
def playLocalFileTrace (buf : List Nat) : List PlayAction :=
  PlayAction.setDecodeSampleRate 16000 :: (parseP3 buf).map PlayAction.enqueue

/-- Bookkeeping invariant of the executor: `active_tasks_` counts exactly
the wrapped closures that have been submitted but have not finished,
i.e. the pending ones plus the in-flight ones. -/
def bgInv (s : BgState) : Prop :=
  s.active = s.pending.length + s.inflight.length

/-- The two-record prompt buffer of the specification's concrete
scenario: payload sizes 320 and 280 bytes. -/
def promptRecords : List P3Record :=
  [⟨0, 0, List.replicate 12 0, List.replicate 320 1⟩,
   ⟨0, 0, List.replicate 12 0, List.replicate 280 2⟩]

/-! ## Theorems -/

/-- C9: calling `SetDeviceState(s)` when the current device state already
equals `s` is a no-op: the state is unchanged and no action at all is
emitted — nothing is logged, no background-task barrier is taken, and no
side effect is applied. -/
theorem setDeviceState_self_noop (s : DeviceState) :
    setDeviceState s s = (s, []) := by
  simp [setDeviceState]

/-- C2: for every call `SetDeviceState(new)` with `new ≠ current`, the
emitted actions are, in order: the state update and the log of the new
state name, then the wait-for-background-completion barrier, then the
LED notification and the per-state side effects; the actions before the
barrier are not side effects and every action after the barrier is
one. -/
theorem setDeviceState_barrier_before_effects (cur target : DeviceState)
    (h : cur ≠ target) :
    (setDeviceState cur target).1 = target ∧
    (setDeviceState cur target).2 =
      [Action.updateState target, Action.logStateChange (stateString target),
        Action.waitForCompletion] ++
        (Action.ledOnStateChanged :: stateSideEffects target) ∧
    (∀ a ∈ [Action.updateState target, Action.logStateChange (stateString target),
        Action.waitForCompletion], a.isSideEffect = false) ∧
    (∀ a ∈ Action.ledOnStateChanged :: stateSideEffects target,
        a.isSideEffect = true) := by
  refine ⟨?_, ?_, ?_, ?_⟩
  · simp [setDeviceState, h]
  · simp [setDeviceState, h]
  · intro a ha
    simp only [List.mem_cons, List.not_mem_nil, or_false] at ha
    rcases ha with rfl | rfl | rfl <;> rfl
  · cases target <;> decide

/-- C2 witness: the Idle → Listening transition instantiates the barrier
ordering theorem. -/
theorem setDeviceState_barrier_before_effects_witness :
    (setDeviceState DeviceState.idle DeviceState.listening).1 =
        DeviceState.listening ∧
    (setDeviceState DeviceState.idle DeviceState.listening).2 =
      [Action.updateState DeviceState.listening,
        Action.logStateChange (stateString DeviceState.listening),
        Action.waitForCompletion] ++
        (Action.ledOnStateChanged :: stateSideEffects DeviceState.listening) ∧
    (∀ a ∈ [Action.updateState DeviceState.listening,
        Action.logStateChange (stateString DeviceState.listening),
        Action.waitForCompletion], a.isSideEffect = false) ∧
    (∀ a ∈ Action.ledOnStateChanged :: stateSideEffects DeviceState.listening,
        a.isSideEffect = true) :=
  setDeviceState_barrier_before_effects DeviceState.idle DeviceState.listening
    (by decide)

/-- C3 counterexample: FatalError → Idle is not among the legal
transitions the claim lists, yet `SetDeviceState` does not ignore it —
the state changes to Idle. -/
theorem setDeviceState_illegal_transition_cex :
    specLegalTransition DeviceState.fatalError DeviceState.idle = false ∧
    (setDeviceState DeviceState.fatalError DeviceState.idle).1 =
      DeviceState.idle := by
  constructor
  · rfl
  · rfl

/-- C3 amended: `SetDeviceState` enforces no transition legality — every
requested state different from the current one is applied, legal or not,
and no warning is logged on any transition; the legal-transition
discipline exists only in the guards at the call sites. -/
theorem setDeviceState_applies_any_request (cur target : DeviceState)
    (h : cur ≠ target) :
    (setDeviceState cur target).1 = target ∧
    (setDeviceState cur target).2.filter Action.isWarning = [] := by
  unfold setDeviceState
  rw [if_neg h]
  refine ⟨rfl, ?_⟩
  cases target <;> rfl

/-- C3 amended witness: the illegal request FatalError → Listening is
applied and logs no warning. -/
theorem setDeviceState_applies_any_request_witness :
    (setDeviceState DeviceState.fatalError DeviceState.listening).1 =
        DeviceState.listening ∧
    (setDeviceState DeviceState.fatalError
        DeviceState.listening).2.filter Action.isWarning = [] :=
  setDeviceState_applies_any_request DeviceState.fatalError DeviceState.listening
    (by decide)

/-- C5: an incoming transport audio frame is appended to the decode
queue iff the device state is Speaking; in every other state the queue
is unchanged. -/
theorem onIncomingAudio_iff_speaking (ds : DeviceState)
    (queue : List (List Nat)) (frame : List Nat) :
    (onIncomingAudio ds queue frame = queue ++ [frame] ↔
      ds = DeviceState.speaking) ∧
    (ds ≠ DeviceState.speaking → onIncomingAudio ds queue frame = queue) := by
  constructor
  · constructor
    · intro h
      by_contra hne
      rw [onIncomingAudio, if_neg hne] at h
      have hlen := congrArg List.length h
      simp at hlen
    · intro h
      rw [onIncomingAudio, if_pos h]
  · intro h
    rw [onIncomingAudio, if_neg h]

/-- C5 witness: in Idle the frame is dropped; the append equation fails
exactly because Idle is not Speaking. -/
theorem onIncomingAudio_iff_speaking_witness :
    onIncomingAudio DeviceState.idle [[3]] [4] = [[3]] ∧
    ¬ onIncomingAudio DeviceState.idle [[3]] [4] = [[3]] ++ [[4]] := by
  have h := onIncomingAudio_iff_speaking DeviceState.idle [[3]] [4]
  refine ⟨h.2 (by decide), fun hc => ?_⟩
  exact absurd (h.1.mp hc) (by decide)

/-- C6: an output-pipeline tick that runs in Listening leaves the decode
queue empty, schedules no decode task and emits no codec action. -/
theorem outputAudio_listening_empties_queue (queue : List (List Nat))
    (lastMs nowMs : Nat) :
    (outputAudio DeviceState.listening queue lastMs nowMs).queue = [] ∧
    (outputAudio DeviceState.listening queue lastMs nowMs).decodeTask = none ∧
    (outputAudio DeviceState.listening queue lastMs nowMs).actions = [] := by
  cases queue <;> exact ⟨rfl, rfl, rfl⟩

/-- C4 counterexample: with state Idle, an empty queue and 10.5 s
(10500 ms, strictly more than 10 s) since the last output, the tick does
not disable the codec output at all — the C++ comparison truncates the
elapsed time to whole seconds, and `10 > 10` fails. -/
theorem outputAudio_idle_silence_cex :
    10 * 1000 < 10500 ∧
    (outputAudio DeviceState.idle [] 0 10500).actions = [] := by
  constructor
  · decide
  · rfl

/-- C4 amended: with state Idle and an empty queue, the tick disables
the codec output — exactly once — iff the elapsed time since the last
output, truncated to whole seconds, strictly exceeds 10, i.e. iff at
least 11 s elapsed; otherwise it emits nothing. -/
theorem outputAudio_idle_silence (lastMs nowMs : Nat) :
    ((outputAudio DeviceState.idle [] lastMs nowMs).actions =
        [Action.enableOutput false] ↔
      maxSilenceSeconds < (nowMs - lastMs) / 1000) ∧
    ((nowMs - lastMs) / 1000 ≤ maxSilenceSeconds →
      (outputAudio DeviceState.idle [] lastMs nowMs).actions = []) := by
  by_cases h : maxSilenceSeconds < (nowMs - lastMs) / 1000
  · refine ⟨?_, fun hle => absurd h (not_lt.mpr hle)⟩
    simp [outputAudio, h]
  · constructor
    · simp [outputAudio, h]
    · intro _
      simp [outputAudio, h]

/-- C4 amended witness: at 11 s of silence the tick disables the codec
output exactly once. -/
theorem outputAudio_idle_silence_witness :
    (outputAudio DeviceState.idle [] 0 11000).actions =
      [Action.enableOutput false] :=
  (outputAudio_idle_silence 0 11000).1.mpr (by decide)

/-- While the `aborted_` flag is set, any run of events that contains no
`tts.start` leaves the flag set and pushes no PCM: each decode closure
sees the flag and drops its frame. -/
theorem speakRun_aborted (decode : List Nat → Option (List Int))
    (resample : List Int → List Int) (needResample : Bool)
    (evs : List SpeakEvent) (h : ∀ e ∈ evs, e ≠ SpeakEvent.ttsStart) :
    speakRun decode resample needResample true evs = (true, []) := by
  induction evs with
  | nil => rfl
  | cons e es ih =>
      have he : e ≠ SpeakEvent.ttsStart := h e (by simp)
      have hes : ∀ x ∈ es, x ≠ SpeakEvent.ttsStart :=
        fun x hx => h x (by simp [hx])
      cases e with
      | abortSpeaking => simp [speakRun, speakStep, ih hes]
      | ttsStart => exact absurd rfl he
      | runDecode opus =>
          simp [speakRun, speakStep, decodeClosure, ih hes]

/-- C1: after an `AbortSpeaking` event sets the `aborted` flag, and as
long as no `tts.start` event clears it, no background decode task pushes
any PCM to the codec, whatever the decoder would have produced, and the
flag stays set. -/
theorem aborted_blocks_decode_output (decode : List Nat → Option (List Int))
    (resample : List Int → List Int) (needResample : Bool) (aborted : Bool)
    (evs : List SpeakEvent) (h : ∀ e ∈ evs, e ≠ SpeakEvent.ttsStart) :
    (speakRun decode resample needResample aborted
        (SpeakEvent.abortSpeaking :: evs)).2 = [] ∧
    (speakRun decode resample needResample aborted
        (SpeakEvent.abortSpeaking :: evs)).1 = true := by
  have key := speakRun_aborted decode resample needResample evs h
  constructor
  · simp [speakRun, speakStep, key]
  · simp [speakRun, speakStep, key]

/-- C1 witness: with a decoder that would happily decode every frame,
two decode tasks running after an abort still push nothing and the flag
is still set. -/
theorem aborted_blocks_decode_output_witness :
    (speakRun (fun _ => some [0]) id false false
        (SpeakEvent.abortSpeaking ::
          [SpeakEvent.runDecode [1], SpeakEvent.runDecode [2]])).2 = [] ∧
    (speakRun (fun _ => some [0]) id false false
        (SpeakEvent.abortSpeaking ::
          [SpeakEvent.runDecode [1], SpeakEvent.runDecode [2]])).1 = true :=
  aborted_blocks_decode_output (fun _ => some [0]) id false false
    [SpeakEvent.runDecode [1], SpeakEvent.runDecode [2]] (by decide)

/-- Each executor operation preserves the counter bookkeeping: `active`
always counts the submitted-but-unfinished closures. -/
theorem bgStep_inv (s : BgState) (op : BgOp) (h : bgInv s) :
    bgInv (bgStep s op).1 := by
  cases op with
  | schedule id =>
      simp only [bgInv, bgStep, List.length_append, List.length_cons,
        List.length_nil] at *
      omega
  | takeBatch =>
      simp only [bgInv, bgStep, List.length_append, List.length_nil] at *
      omega
  | finishOne =>
      cases hfl : s.inflight with
      | nil => simpa [bgStep, hfl] using h
      | cons t rest =>
          simp only [bgInv, bgStep, hfl, List.length_cons] at *
          omega

/-- Each executor operation extends `done ++ inflight ++ pending` by
exactly the ids scheduled by that operation, keeping submission
order. -/
theorem bgStep_ids (s : BgState) (op : BgOp) :
    (bgStep s op).1.done ++ (bgStep s op).1.inflight ++
        (bgStep s op).1.pending =
      (s.done ++ s.inflight ++ s.pending) ++ bgScheduledIds [op] := by
  cases op with
  | schedule id => simp [bgStep, bgScheduledIds]
  | takeBatch => simp [bgStep, bgScheduledIds]
  | finishOne =>
      cases hfl : s.inflight with
      | nil => simp [bgStep, hfl, bgScheduledIds]
      | cons t rest => simp [bgStep, hfl, bgScheduledIds]

/-- Running any operation sequence preserves the counter invariant and
accumulates exactly the scheduled ids, in order. -/
theorem bgRun_inv_ids (ops : List BgOp) (s : BgState) (h : bgInv s) :
    bgInv (bgRun s ops) ∧
    (bgRun s ops).done ++ (bgRun s ops).inflight ++ (bgRun s ops).pending =
      (s.done ++ s.inflight ++ s.pending) ++ bgScheduledIds ops := by
  induction ops generalizing s with
  | nil => simpa [bgRun, bgScheduledIds] using h
  | cons op ops ih =>
      obtain ⟨ih1, ih2⟩ := ih (bgStep s op).1 (bgStep_inv s op h)
      refine ⟨ih1, ?_⟩
      rw [bgRun, ih2, bgStep_ids]
      cases op <;> simp [bgScheduledIds]

/-- C7: for every operation sequence on a freshly constructed executor,
`active_tasks_` equals the number of pending plus in-flight closures
(incremented at submission, decremented only after the closure has run);
the predicate `WaitForCompletion` blocks on holds only when nothing is
pending and nothing is in flight — and then every scheduled closure has
run, in submission order; and a step emits the completion notification
exactly when it finishes a closure and both the queue and the counter
thereby reach zero. -/
theorem waitForCompletion_only_when_drained (ops : List BgOp) (op : BgOp) :
    (bgRun bgInit ops).active =
        (bgRun bgInit ops).pending.length +
          (bgRun bgInit ops).inflight.length ∧
    (bgRun bgInit ops).done ++ (bgRun bgInit ops).inflight ++
        (bgRun bgInit ops).pending = bgScheduledIds ops ∧
    (bgWaitPred (bgRun bgInit ops) = true →
      (bgRun bgInit ops).pending = [] ∧ (bgRun bgInit ops).inflight = [] ∧
      (bgRun bgInit ops).done = bgScheduledIds ops) ∧
    ((bgStep (bgRun bgInit ops) op).2 = true ↔
      op = BgOp.finishOne ∧ (bgRun bgInit ops).inflight ≠ [] ∧
        bgWaitPred (bgStep (bgRun bgInit ops) op).1 = true) := by
  obtain ⟨hinv, hids⟩ := bgRun_inv_ids ops bgInit (by simp [bgInv, bgInit])
  have hids0 : (bgRun bgInit ops).done ++ (bgRun bgInit ops).inflight ++
      (bgRun bgInit ops).pending = bgScheduledIds ops := by
    simpa [bgInit] using hids
  refine ⟨hinv, hids0, ?_, ?_⟩
  · intro hw
    simp only [bgWaitPred, Bool.and_eq_true, List.isEmpty_iff,
      beq_iff_eq] at hw
    obtain ⟨hp, ha⟩ := hw
    have hfl : (bgRun bgInit ops).inflight = [] := by
      rw [bgInv, hp, ha] at hinv
      simpa using (List.length_eq_zero.mp (by omega))
    refine ⟨hp, hfl, ?_⟩
    simpa [hp, hfl] using hids0
  · cases op with
    | schedule id =>
        simp [bgStep]
    | takeBatch =>
        simp [bgStep]
    | finishOne =>
        cases hfl : (bgRun bgInit ops).inflight with
        | nil => simp [bgStep, hfl]
        | cons t rest => simp [bgStep, hfl]

/-- C7 witness: schedule one closure, let the worker take it and finish
it; the wait predicate then holds and the done list is exactly the
scheduled ids. -/
theorem waitForCompletion_only_when_drained_witness :
    (bgRun bgInit [BgOp.schedule 1, BgOp.takeBatch, BgOp.finishOne]).pending
        = [] ∧
    (bgRun bgInit [BgOp.schedule 1, BgOp.takeBatch, BgOp.finishOne]).inflight
        = [] ∧
    (bgRun bgInit [BgOp.schedule 1, BgOp.takeBatch, BgOp.finishOne]).done =
      bgScheduledIds [BgOp.schedule 1, BgOp.takeBatch, BgOp.finishOne] :=
  (waitForCompletion_only_when_drained
      [BgOp.schedule 1, BgOp.takeBatch, BgOp.finishOne] BgOp.takeBatch).2.2.1
    (by decide)

/-- The header of a well-formed record is exactly `headerSize` bytes. -/
theorem length_p3header (r : P3Record) (h : r.hdrRest.length = 12) :
    (p3header r).length = headerSize := by
  simp [p3header, headerSize, h]

/-- The size field of an encoded record declares the payload's length. -/
theorem declaredSize_encode (r : P3Record) (_h : r.payload.length < 65536)
    (rest : List Nat) :
    declaredSize (encodeRecord r ++ rest) = r.payload.length := by
  simp only [declaredSize, encodeRecord, p3header, payloadSizeOffset, beU16,
    List.cons_append, List.getD_cons_succ, List.getD_cons_zero]
  omega

/-- Parsing an empty buffer yields no payloads. -/
theorem parseP3_nil : parseP3 [] = [] := by
  rw [parseP3]

/-- Parsing a buffer that starts with a well-formed encoded record peels
off exactly that record's payload and continues after it. -/
theorem parseP3_encode (r : P3Record) (h : r.wf) (rest : List Nat) :
    parseP3 (encodeRecord r ++ rest) = r.payload :: parseP3 rest := by
  obtain ⟨h1, h2⟩ := h
  have hb : encodeRecord r ++ rest =
      r.b0 :: (r.b1 :: (r.payload.length / 256) :: (r.payload.length % 256) ::
        (r.hdrRest ++ (r.payload ++ rest))) := by
    simp [encodeRecord, p3header]
  have hsize : declaredSize
      (r.b0 :: (r.b1 :: (r.payload.length / 256) :: (r.payload.length % 256) ::
        (r.hdrRest ++ (r.payload ++ rest)))) = r.payload.length := by
    rw [← hb, declaredSize_encode r h2]
  have hb2 : r.b0 :: (r.b1 :: (r.payload.length / 256) ::
      (r.payload.length % 256) :: (r.hdrRest ++ (r.payload ++ rest))) =
      p3header r ++ (r.payload ++ rest) := by
    simp [p3header]
  have hlen : (p3header r).length = headerSize := length_p3header r h1
  rw [hb, parseP3, hsize, hb2, ← hlen, List.drop_left,
    List.drop_append r.payload.length, List.take_left, List.drop_left]

/-- Parsing the concatenation of well-formed encoded records yields
exactly their payloads, in order. -/
theorem parseP3_encodeList (records : List P3Record)
    (h : ∀ r ∈ records, r.wf) :
    parseP3 (records.map encodeRecord).flatten =
      records.map P3Record.payload := by
  induction records with
  | nil => simpa using parseP3_nil
  | cons r rs ih =>
      have hr : r.wf := h r (by simp)
      have hrs : ∀ x ∈ rs, x.wf := fun x hx => h x (by simp [hx])
      simp only [List.map_cons, List.flatten_cons]
      rw [parseP3_encode r hr, ih hrs]

/-- C8: on a buffer that is the concatenation of N well-formed framed
records, `PlayLocalFile` sets the decode sample rate to 16 kHz before
any enqueue and appends exactly the N payloads to the decode queue, in
buffer order, each of its declared size. -/
theorem playLocalFile_enqueues_all_frames (records : List P3Record)
    (st : AppState) (h : ∀ r ∈ records, r.wf) :
    playLocalFile st (records.map encodeRecord).flatten =
      { st with
          opusDecodeSampleRate := 16000
          audioDecodeQueue :=
            st.audioDecodeQueue ++ records.map P3Record.payload } ∧
    playLocalFileTrace (records.map encodeRecord).flatten =
      PlayAction.setDecodeSampleRate 16000 ::
        records.map (fun r => PlayAction.enqueue r.payload) := by
  have hp := parseP3_encodeList records h
  constructor
  · simp [playLocalFile, hp]
  · simp [playLocalFileTrace, hp]

set_option maxRecDepth 4000 in
/-- C8 witness: the two-record prompt buffer with payload sizes 320 and
280 yields, after `PlayLocalFile`, decode rate 16000 and exactly those
two payloads appended in order. -/
theorem playLocalFile_enqueues_all_frames_witness :
    playLocalFile ⟨DeviceState.idle, [], 24000⟩
        (promptRecords.map encodeRecord).flatten =
      ⟨DeviceState.idle, [] ++ promptRecords.map P3Record.payload, 16000⟩ ∧
    playLocalFileTrace (promptRecords.map encodeRecord).flatten =
      PlayAction.setDecodeSampleRate 16000 ::
        promptRecords.map (fun r => PlayAction.enqueue r.payload) :=
  playLocalFile_enqueues_all_frames promptRecords
    ⟨DeviceState.idle, [], 24000⟩ (by
      intro r hr
      simp only [promptRecords, List.mem_cons, List.not_mem_nil,
        or_false] at hr
      rcases hr with rfl | rfl <;> exact ⟨by simp, by simp⟩)

/-- C10: `PlayLocalFile` appends its parsed prompt frames to the decode
queue without consulting the device state — in particular in any
non-Speaking state, where the transport's `OnIncomingAudio` handler
would drop the very same bytes. -/
theorem playLocalFile_ignores_device_state (st : AppState)
    (buf : List Nat) (frame : List Nat)
    (h : st.deviceState ≠ DeviceState.speaking) :
    (playLocalFile st buf).audioDecodeQueue =
        st.audioDecodeQueue ++ parseP3 buf ∧
    (playLocalFile st buf).deviceState = st.deviceState ∧
    onIncomingAudio st.deviceState st.audioDecodeQueue frame =
      st.audioDecodeQueue := by
  refine ⟨rfl, rfl, ?_⟩
  rw [onIncomingAudio, if_neg h]

/-- C10 witness: in Idle, a prompt buffer is enqueued by `PlayLocalFile`
while the same situation drops a transport frame. -/
theorem playLocalFile_ignores_device_state_witness :
    (playLocalFile ⟨DeviceState.idle, [[9]], 24000⟩
        (encodeRecord ⟨1, 2, List.replicate 12 3, [4, 5]⟩)).audioDecodeQueue =
      [[9]] ++ parseP3 (encodeRecord ⟨1, 2, List.replicate 12 3, [4, 5]⟩) ∧
    (playLocalFile ⟨DeviceState.idle, [[9]], 24000⟩
        (encodeRecord ⟨1, 2, List.replicate 12 3, [4, 5]⟩)).deviceState =
      DeviceState.idle ∧
    onIncomingAudio DeviceState.idle [[9]] [7] = [[9]] :=
  playLocalFile_ignores_device_state ⟨DeviceState.idle, [[9]], 24000⟩
    (encodeRecord ⟨1, 2, List.replicate 12 3, [4, 5]⟩) [7] (by decide)

end XiaoZhi
